import Mathlib

/-!
# Verification of the elevator event-analytics core

A shallow embedding of the analytics engine of the elevator agent:
the status classifier, the interval reconstructor, the metrics aggregator,
the daily-availability partitioner, the coverage estimator, the door-cycle
state machine and the range validator.

Modelling conventions:
* Zoned local datetimes and epoch-millisecond timestamps are both modelled as
  `Int` milliseconds on one local timeline (the timezone conversion used by the
  source preserves instants, so it is the identity here).
* Python's float minute/percentage arithmetic is modelled exactly with `ℚ`.
* Python's `date()` on a local datetime becomes a local day index obtained by
  floor division (`Int.fdiv`, exactly Python's `//`) by 86_400_000 ms.
* Python dictionaries for warning/recommendation strings become inductive tags
  carrying the same data that the source interpolates into the strings.
-/

/-- Milliseconds in one local calendar day. -/
def msPerDay : Int := 86400000

/-- Python `datetime.date()` as a local day index: floor division by a day, exactly
Python's `//` semantics (`Int.fdiv` rounds towards minus infinity). -/
def dayOf (t : Int) : Int := Int.fdiv t msPerDay

/-- The set of car modes classified as uptime (`UPTIME_MODES` in the source). -/
def UPTIME_MODES : List String :=
  ["ANS", "ATT", "CHC", "CTL", "DCP", "DEF", "DHB", "DTC", "DTO",
   "EFO", "EFS", "EHS", "EPC", "EPR", "EPW", "IDL", "INI", "INS",
   "ISC", "LNS", "NOR", "PKS", "PRK", "RCY", "REC", "SRO", "STP"]

/-- The set of car modes classified as downtime (`DOWNTIME_MODES`). -/
def DOWNTIME_MODES : List String :=
  ["COR", "DBF", "DLF", "ESB", "HAD", "HBP", "NAV"]

/-- Source `UptimeService.get_mode_status`: classify a mode name. -/
def get_mode_status (mode_name : String) : String :=
  if UPTIME_MODES.contains mode_name then "uptime"
  else if DOWNTIME_MODES.contains mode_name then "downtime"
  else "unknown"

/-- A `CarModeChanged` event (flat projection): timestamp in epoch ms,
mode name, machine id. -/
structure Event where
  timestamp : Int
  mode_name : String
  machine_id : String
deriving DecidableEq, Repr

/-- Source `ModeInterval`: a classified time interval. -/
structure ModeInterval where
  start_time : Int
  end_time : Int
  mode_name : String
  machine_id : String
  status : String
deriving DecidableEq, Repr

/-- Source `ModeInterval.duration_minutes`: `(end - start).total_seconds() / 60`. -/
def ModeInterval.duration_minutes (iv : ModeInterval) : ℚ :=
  ((iv.end_time - iv.start_time : Int) : ℚ) / 60000

/-- Stable insertion into a key-sorted list: the new element goes after all
elements whose key is not greater, matching the stability of Python's sort. -/
def insertSorted {α β : Type} [LinearOrder β] (key : α → β) (x : α) :
    List α → List α
  | [] => [x]
  | y :: ys => if key x < key y then x :: y :: ys else y :: insertSorted key x ys

/-- Stable sort by key (`sorted(..., key=...)` in the source). -/
def sortByKey {α β : Type} [LinearOrder β] (key : α → β) (l : List α) : List α :=
  l.foldl (fun acc x => insertSorted key x acc) []

/-- The loop body of `UptimeService.build_intervals` over the sorted events:
event `i` yields `[max(tᵢ, start), min(tᵢ₊₁, end))` (the last event extends to
the window end), kept only when nonempty. -/
def intervalsFromSorted (s e : Int) (mid : String) : List Event → List ModeInterval
  | [] => []
  | ev :: rest =>
    let interval_start := max ev.timestamp s
    let interval_end :=
      match rest with
      | [] => e
      | ev2 :: _ => min ev2.timestamp e
    let tail := intervalsFromSorted s e mid rest
    if interval_start < interval_end then
      { start_time := interval_start, end_time := interval_end,
        mode_name := ev.mode_name, machine_id := mid,
        status := get_mode_status ev.mode_name } :: tail
    else tail

/-- Source `UptimeService.build_intervals`: sort the events by timestamp and emit the
clipped intervals. -/
def build_intervals (events : List Event) (start_time end_time : Int)
    (machine_id : String) : List ModeInterval :=
  if events.isEmpty then []
  else
    intervalsFromSorted start_time end_time machine_id
      (sortByKey (fun ev => ev.timestamp) events)

/-- Source `UptimeMetrics` as computed by `UptimeService.calculate_metrics`. -/
structure UptimeMetrics where
  machine_id : String
  installation_id : String
  uptime_minutes : ℚ
  downtime_minutes : ℚ
  unknown_minutes : ℚ
  total_minutes : ℚ
  uptime_percentage : ℚ
  downtime_percentage : ℚ
  intervals : List ModeInterval
deriving Repr

/-- Source `UptimeService.calculate_metrics`: sum interval durations by status, with
zero-guarded percentages. -/
def calculate_metrics (intervals : List ModeInterval)
    (machine_id installation_id : String) : UptimeMetrics :=
  let acc := intervals.foldl
    (fun (a : ℚ × ℚ × ℚ) iv =>
      if iv.status = "uptime" then (a.1 + iv.duration_minutes, a.2.1, a.2.2)
      else if iv.status = "downtime" then (a.1, a.2.1 + iv.duration_minutes, a.2.2)
      else (a.1, a.2.1, a.2.2 + iv.duration_minutes))
    (0, 0, 0)
  let uptime_minutes := acc.1
  let downtime_minutes := acc.2.1
  let unknown_minutes := acc.2.2
  let total_minutes := uptime_minutes + downtime_minutes + unknown_minutes
  let uptime_percentage := if total_minutes > 0 then uptime_minutes / total_minutes * 100 else 0
  let downtime_percentage := if total_minutes > 0 then downtime_minutes / total_minutes * 100 else 0
  { machine_id := machine_id, installation_id := installation_id,
    uptime_minutes := uptime_minutes, downtime_minutes := downtime_minutes,
    unknown_minutes := unknown_minutes, total_minutes := total_minutes,
    uptime_percentage := uptime_percentage, downtime_percentage := downtime_percentage,
    intervals := intervals }

/-- One row of the daily availability breakdown
(`UptimeService.calculate_daily_availability`).  The source stores hours;
minutes are `60 *` the stored hours. -/
structure DailyEntry where
  day : Int
  expected_hours : ℚ
  actual_hours : ℚ
  availability_percentage : ℚ
  has_data : Bool
deriving DecidableEq, Repr, Inhabited

/-- One iteration of the day loop in `calculate_daily_availability` for local
day `d`.  The source parses the day bounds as `T00:00:00` and `T23:59:59`
(so the cap is one second before midnight), clips them to the window, and sums
interval overlaps. -/
def daily_entry (intervals : List ModeInterval) (s e : Int) (d : Int) : DailyEntry :=
  let day_start_dt := max (d * msPerDay) s
  let day_end_dt := min (d * msPerDay + 86399000) e
  let expected_minutes : ℚ := ((day_end_dt - day_start_dt : Int) : ℚ) / 60000
  let expected_hours := expected_minutes / 60
  let actual_minutes : ℚ := intervals.foldl
    (fun a iv =>
      let overlap_start := max iv.start_time day_start_dt
      let overlap_end := min iv.end_time day_end_dt
      if overlap_start < overlap_end then
        a + ((overlap_end - overlap_start : Int) : ℚ) / 60000
      else a) 0
  let has_data := intervals.any
    (fun iv => max iv.start_time day_start_dt < min iv.end_time day_end_dt)
  let actual_hours := actual_minutes / 60
  let availability_percentage :=
    if expected_hours > 0 then actual_hours / expected_hours * 100 else 0
  { day := d, expected_hours := expected_hours, actual_hours := actual_hours,
    availability_percentage := availability_percentage, has_data := has_data }

/-- Source `UptimeService.calculate_daily_availability`: one entry per local calendar
day from the window start's day to the window end's day, inclusive. -/
def calculate_daily_availability (intervals : List ModeInterval) (s e : Int) :
    List DailyEntry :=
  (List.range (Int.toNat (dayOf e - dayOf s + 1))).map
    (fun i : Nat => daily_entry intervals s e (dayOf s + (i : Int)))

/-- Warning tags of `TimezoneService.validate_date_range`, carrying the data
interpolated into the warning strings of the source. -/
inductive VWarning
  | startFuture (startDay : Int)
  | endFuture (endDay : Int)
  | startNotBeforeEnd
  | endIsCurrentDay (today : Int)
  | rangeTooLarge (days : Int)
  | largeRange (days : Int)
deriving DecidableEq, Repr

/-- Recommendation tags of `TimezoneService.validate_date_range`. -/
inductive VRec
  | latestAvailable (today : Int)
  | currentTimeIs (today : Int)
  | useEndTodayOrPast
  | latestAllowedEnd (yesterday : Int)
  | noCurrentDay
  | earliestStartFor (endDay earliestStartDay : Int)
  | maxRangeIs (days : Int)
  | selectShorter
  | smallerPeriods
deriving DecidableEq, Repr

/-- The result dictionary of `validate_date_range`. -/
structure ValidationResult where
  is_valid : Bool
  warnings : List VWarning
  recommendations : List VRec
  latest_available_date : Int
  current_time_local : Int
deriving Repr

/-- The future-date checks of `validate_date_range`: reject a start date after
today, else reject an end date after today. -/
def validate_step_future (sd ed cd : Int) (r0 : ValidationResult) : ValidationResult :=
  if sd > cd then
    { r0 with
        is_valid := false,
        warnings := r0.warnings ++ [VWarning.startFuture sd],
        recommendations := r0.recommendations ++
          [VRec.latestAvailable cd, VRec.currentTimeIs cd] }
  else if ed > cd then
    { r0 with
        is_valid := false,
        warnings := r0.warnings ++ [VWarning.endFuture ed],
        recommendations := r0.recommendations ++
          [VRec.latestAvailable cd, VRec.currentTimeIs cd, VRec.useEndTodayOrPast] }
  else r0

/-- The ordering check of `validate_date_range`: `start >= end` is invalid. -/
def validate_step_order (start_time end_time : Int) (r : ValidationResult) :
    ValidationResult :=
  if start_time ≥ end_time then
    { r with
        is_valid := false,
        warnings := r.warnings ++ [VWarning.startNotBeforeEnd] }
  else r

/-- The current-day exclusion of `validate_date_range`: an end date on or
after today is invalid, with yesterday as the latest allowed end date. -/
def validate_step_current_day (ed cd : Int) (r : ValidationResult) : ValidationResult :=
  if ed ≥ cd then
    { r with
        is_valid := false,
        warnings := r.warnings ++ [VWarning.endIsCurrentDay cd],
        recommendations := r.recommendations ++
          [VRec.latestAllowedEnd (cd - 1), VRec.noCurrentDay] }
  else r

/-- The 14-day maximum-span check of `validate_date_range`, evaluated only
when the result is still valid. -/
def validate_step_span (sd ed : Int) (r : ValidationResult) : ValidationResult :=
  if r.is_valid then
    if ed - sd > 14 then
      { r with
          is_valid := false,
          warnings := r.warnings ++ [VWarning.rangeTooLarge (ed - sd)],
          recommendations := r.recommendations ++
            [VRec.earliestStartFor ed (ed - 14), VRec.maxRangeIs 14, VRec.selectShorter] }
    else r
  else r

/-- The 365-day performance warning of `validate_date_range` (warning only,
never invalidates). -/
def validate_step_large (start_time end_time : Int) (r : ValidationResult) :
    ValidationResult :=
  if Int.fdiv (end_time - start_time) msPerDay > 365 then
    { r with
        warnings := r.warnings ++
          [VWarning.largeRange (Int.fdiv (end_time - start_time) msPerDay)],
        recommendations := r.recommendations ++ [VRec.smallerPeriods] }
  else r

/-- Source `TimezoneService.validate_date_range`: future-date checks, ordering check,
current-day exclusion, 14-day maximum span (skipped once already invalid), and
the 365-day performance warning, applied in the source's order. -/
def validate_date_range (start_time end_time current_local : Int) : ValidationResult :=
  let sd := dayOf start_time
  let ed := dayOf end_time
  let cd := dayOf current_local
  validate_step_large start_time end_time
    (validate_step_span sd ed
      (validate_step_current_day ed cd
        (validate_step_order start_time end_time
          (validate_step_future sd ed cd
            { is_valid := true, warnings := [], recommendations := [],
              latest_available_date := cd, current_time_local := current_local }))))

/-- One element of the `machine_metrics` list built by
`UptimeService.get_uptime_metrics` (the fields the claims are about). -/
structure MachineEntry where
  machine_id : String
  uptime_minutes : ℚ
  downtime_minutes : ℚ
  uptime_percentage : ℚ
  downtime_percentage : ℚ
  total_minutes : ℚ
  has_data : Bool
  intervals : List ModeInterval
deriving Repr

/-- Numeric value of a machine-id string made of decimal digits
(Python's `int(...)` sort key in `get_uptime_metrics`). -/
def asNum (str : String) : Nat :=
  str.foldl (fun n c => n * 10 + (c.toNat - 48)) 0

/-- The per-machine body of the loop in `get_uptime_metrics`: machines with
events get reconstructed intervals and metrics; machines without events get the
all-zero entry with `has_data = False`. -/
def machine_entry (events : List Event) (s e : Int) (installation_id mid : String) :
    MachineEntry :=
  let machine_events := events.filter (fun ev => ev.machine_id == mid)
  if machine_events.isEmpty then
    { machine_id := mid, uptime_minutes := 0, downtime_minutes := 0,
      uptime_percentage := 0, downtime_percentage := 0, total_minutes := 0,
      has_data := false, intervals := [] }
  else
    let intervals := build_intervals machine_events s e mid
    let m := calculate_metrics intervals mid installation_id
    { machine_id := mid, uptime_minutes := m.uptime_minutes,
      downtime_minutes := m.downtime_minutes,
      uptime_percentage := m.uptime_percentage,
      downtime_percentage := m.downtime_percentage,
      total_minutes := m.total_minutes, has_data := true,
      intervals := m.intervals }

/-- The `machine_metrics` list of `get_uptime_metrics`: one entry per target
machine id, sorted by `int(machine_id)` ascending. -/
def machine_metrics_for (events : List Event) (target_machine_ids : List String)
    (s e : Int) (installation_id : String) : List MachineEntry :=
  sortByKey (fun m => asNum m.machine_id)
    (target_machine_ids.map (machine_entry events s e installation_id))

/-- A `CarModeChanged` event as seen by the coverage estimator:
`event.get('Timestamp', 0)`, so a missing timestamp is the falsy `0`. -/
structure CovEvent where
  timestamp : Int
  machine_id : String
deriving DecidableEq, Repr

/-- Source `DataCoverageService._estimate_coverage_from_events`: sort the (truthy)
timestamps, clip first and last to the window, and apply the step-function
heuristic on the span-to-window ratio. -/
def estimate_coverage_from_events (events : List CovEvent)
    (start_epoch end_epoch : Int) : ℚ :=
  if events.isEmpty then 0
  else
    let timestamps := events.filterMap
      (fun ev => if ev.timestamp ≠ 0 then some ev.timestamp else none)
    if timestamps.isEmpty then 0
    else
      let sortedTs := sortByKey (fun t => t) timestamps
      let first_event_ts := max (sortedTs.headD 0) start_epoch
      let last_event_ts := min (sortedTs.getLastD 0) end_epoch
      let coverage_span_minutes : ℚ :=
        ((last_event_ts - first_event_ts : Int) : ℚ) / 60000
      let total_period_minutes : ℚ :=
        ((end_epoch - start_epoch : Int) : ℚ) / 60000
      let span_fraction :=
        if total_period_minutes > 0 then coverage_span_minutes / total_period_minutes
        else 0
      if span_fraction > 8 / 10 then total_period_minutes * (95 / 100)
      else if span_fraction > 5 / 10 then total_period_minutes * (8 / 10)
      else if span_fraction > 2 / 10 then total_period_minutes * (6 / 10)
      else total_period_minutes * (3 / 10)

/-- One element of `machine_coverage` in
`DataCoverageService._analyze_car_mode_coverage`. -/
structure MachineCoverage where
  machine_id : String
  has_data : Bool
  event_count : Nat
  coverage_minutes : ℚ
deriving DecidableEq, Repr

/-- The per-machine body of `_analyze_car_mode_coverage`: machines with events
get the heuristic estimate, silent machines get `has_data = False` and zero
coverage minutes. -/
def machine_coverage_entry (events : List CovEvent) (s e : Int) (mid : String) :
    MachineCoverage :=
  let machine_events := events.filter (fun ev => ev.machine_id == mid)
  if machine_events.isEmpty then
    { machine_id := mid, has_data := false, event_count := 0, coverage_minutes := 0 }
  else
    { machine_id := mid, has_data := true, event_count := machine_events.length,
      coverage_minutes := estimate_coverage_from_events machine_events s e }

/-- The result of `CarModeChangedTool.run`: either the early validation-error
return (no metrics computed) or the computed metrics. -/
inductive CarModeResult
  | validationError (warnings : List VWarning) (recommendations : List VRec)
  | metrics (machine_metrics : List MachineEntry)
deriving Repr

/-- Source `CarModeChangedTool.run`: validate the window first and return the
structured error without computing any metrics when validation fails. -/
def car_mode_changed_run (events : List Event) (target_machine_ids : List String)
    (installation_id : String) (s e current_local : Int) : CarModeResult :=
  let v := validate_date_range s e current_local
  if v.is_valid then
    CarModeResult.metrics (machine_metrics_for events target_machine_ids s e installation_id)
  else
    CarModeResult.validationError v.warnings v.recommendations

/-- A door event for one (machine, side, deck) group: state name
(already upper-cased by the source) and optional timestamp
(`if timestamp is None: continue`). -/
structure DoorEvent where
  state : String
  timestamp : Option Int
deriving DecidableEq, Repr

/-- The mutable loop state of `_calculate_cycles_and_timings` for one
(machine, side, deck) group.  The `cycle_timestamps` dict becomes four
options; the per-day counter dicts become lists of day indices (the count for
a day is the number of its occurrences). -/
structure DoorState where
  current_sequence_index : Nat
  ts_opening : Option Int
  ts_opened : Option Int
  ts_closing : Option Int
  ts_closed : Option Int
  last_closed_timestamp : Option Int
  cycle_days : List Int
  reversal_days : List Int
  opened_durations : List ℚ
  closing_to_closed_durations : List ℚ
  closed_to_opening_durations : List ℚ
deriving DecidableEq, Repr

/-- The fixed four-phase order `["OPENING", "OPENED", "CLOSING", "CLOSED"]`. -/
def cycle_sequence : List String := ["OPENING", "OPENED", "CLOSING", "CLOSED"]

/-- The state before any event of a group is processed. -/
def initDoorState : DoorState :=
  { current_sequence_index := 0, ts_opening := none, ts_opened := none,
    ts_closing := none, ts_closed := none, last_closed_timestamp := none,
    cycle_days := [], reversal_days := [], opened_durations := [],
    closing_to_closed_durations := [], closed_to_opening_durations := [] }

/-- Record `cycle_timestamps[state] = timestamp` for the four phase names. -/
def recordPhase (st : DoorState) (state : String) (ts : Int) : DoorState :=
  if state = "OPENING" then { st with ts_opening := some ts }
  else if state = "OPENED" then { st with ts_opened := some ts }
  else if state = "CLOSING" then { st with ts_closing := some ts }
  else if state = "CLOSED" then { st with ts_closed := some ts }
  else st

/-- One iteration of the event loop of `_calculate_cycles_and_timings`:
advance on the expected phase; on an out-of-order `OPENING`, record a reversal
when the `CLOSING` phase had been reached (index 3 with a recorded `CLOSING`
timestamp) and restart the cycle at `OPENING`; reset on any other mismatch;
then, when the index reaches 4, record a completed cycle bucketed by the local
day of the closing event, capture the two in-cycle duration samples, and
remember the closing timestamp for the closed-to-opening series. -/
def stepDoor (st : DoorState) (ev : DoorEvent) : DoorState :=
  match ev.timestamp with
  | none => st
  | some ts =>
    let st1 :=
      if ev.state = cycle_sequence.getD st.current_sequence_index "" then
        { recordPhase st ev.state ts with
            current_sequence_index := st.current_sequence_index + 1 }
      else if ev.state = "OPENING" then
        let str :=
          if st.current_sequence_index = 3 ∧ st.ts_closing.isSome then
            { st with reversal_days := st.reversal_days ++ [dayOf ts] }
          else st
        let sto :=
          { str with
              ts_opening := some ts, ts_opened := none, ts_closing := none,
              ts_closed := none, current_sequence_index := 1 }
        match st.last_closed_timestamp with
        | some lc =>
          { sto with
              closed_to_opening_durations :=
                sto.closed_to_opening_durations ++ [((ts - lc : Int) : ℚ) / 1000] }
        | none => sto
      else
        { st with
            current_sequence_index := 0, ts_opening := none, ts_opened := none,
            ts_closing := none, ts_closed := none }
    if st1.current_sequence_index = 4 then
      let st2 := { st1 with cycle_days := st1.cycle_days ++ [dayOf ts] }
      let st3 :=
        match st1.ts_opening, st1.ts_opened, st1.ts_closing, st1.ts_closed with
        | some _, some od, some cg, some cl =>
          { st2 with
              opened_durations := st2.opened_durations ++ [((cg - od : Int) : ℚ) / 1000],
              closing_to_closed_durations :=
                st2.closing_to_closed_durations ++ [((cl - cg : Int) : ℚ) / 1000] }
        | _, _, _, _ => st2
      { st3 with
          last_closed_timestamp := st1.ts_closed, current_sequence_index := 0,
          ts_opening := none, ts_opened := none, ts_closing := none,
          ts_closed := none }
    else st1

/-- Replay the (time-ordered) event list of one (machine, side, deck) group. -/
def run_door_events (events : List DoorEvent) : DoorState :=
  events.foldl stepDoor initDoorState

/-- Predicate `Tiles l a b`: the intervals `l` exactly tile `[a, b)` — each interval is
nonempty (`start < end`), each interval starts exactly where the previous one
ended (no gaps, no overlaps), the first starts at `a` and the last ends at `b`
(an empty list tiles only the empty range `a = b`). -/
def Tiles : List ModeInterval → Int → Int → Prop
  | [], a, b => a = b
  | iv :: rest, a, b =>
    iv.start_time = a ∧ iv.start_time < iv.end_time ∧ Tiles rest iv.end_time b

instance Tiles.dec : (l : List ModeInterval) → (a b : Int) → Decidable (Tiles l a b)
  | [], _, _ => inferInstanceAs (Decidable (_ = _))
  | iv :: rest, _, b =>
    haveI := Tiles.dec rest iv.end_time b
    inferInstanceAs (Decidable (_ ∧ _ ∧ _))

/-- Total duration in minutes of a list of intervals. -/
def duration_sum_minutes (l : List ModeInterval) : ℚ :=
  l.foldl (fun a iv => a + iv.duration_minutes) 0

/-- Total duration in milliseconds of a list of intervals (spec side). -/
def durationSumMs : List ModeInterval → Int
  | [] => 0
  | iv :: rest => (iv.end_time - iv.start_time) + durationSumMs rest

/-- The earliest event timestamp of a nonempty event list (spec side, for
stating which part of the window `build_intervals` can represent). -/
def minEventTs : List Event → Int
  | [] => 0
  | [ev] => ev.timestamp
  | ev :: rest => min ev.timestamp (minEventTs rest)

/-- Minimum of a nonempty list of integers (spec side). -/
def listMin : List Int → Int
  | [] => 0
  | [t] => t
  | t :: rest => min t (listMin rest)

/-- Maximum of a nonempty list of integers (spec side). -/
def listMax : List Int → Int
  | [] => 0
  | [t] => t
  | t :: rest => max t (listMax rest)

/-- Millisecond sum of the (positive) overlaps of the intervals with the
clipped day `[ds, de)` (spec side; the daily-availability loop accumulates the
same quantity in minutes). -/
def overlapSumMs (ds de : Int) : List ModeInterval → Int
  | [] => 0
  | iv :: rest =>
    (if max iv.start_time ds < min iv.end_time de then
      min iv.end_time de - max iv.start_time ds
    else 0) + overlapSumMs ds de rest

/-! ## Sorting lemmas -/

theorem insertSorted_perm {α β : Type} [LinearOrder β] (key : α → β) (x : α) :
    ∀ l : List α, (insertSorted key x l).Perm (x :: l)
  | [] => List.Perm.refl _
  | y :: ys => by
    unfold insertSorted
    split
    · exact List.Perm.refl _
    · exact ((insertSorted_perm key x ys).cons y).trans (List.Perm.swap x y ys)

theorem sortByKey_perm {α β : Type} [LinearOrder β] (key : α → β) (l : List α) :
    (sortByKey key l).Perm l := by
  have h : ∀ (l acc : List α),
      (l.foldl (fun acc x => insertSorted key x acc) acc).Perm (acc ++ l) := by
    intro l
    induction l with
    | nil => intro acc; simp
    | cons x xs ih =>
      intro acc
      refine ((ih (insertSorted key x acc)).trans ?_)
      refine (((insertSorted_perm key x acc).append_right xs).trans ?_)
      exact List.perm_middle.symm
  simpa using h l []

theorem insertSorted_mem {α β : Type} [LinearOrder β] (key : α → β) (x z : α)
    (l : List α) : z ∈ insertSorted key x l ↔ z = x ∨ z ∈ l := by
  rw [(insertSorted_perm key x l).mem_iff, List.mem_cons]

theorem insertSorted_pairwise {α β : Type} [LinearOrder β] (key : α → β) (x : α) :
    ∀ {l : List α}, l.Pairwise (fun a b => key a ≤ key b) →
      (insertSorted key x l).Pairwise (fun a b => key a ≤ key b)
  | [], _ => by simp [insertSorted]
  | y :: ys, h => by
    rcases List.pairwise_cons.mp h with ⟨hy, hys⟩
    unfold insertSorted
    split
    next hlt =>
      refine List.pairwise_cons.mpr ⟨?_, h⟩
      intro z hz
      rcases List.mem_cons.mp hz with rfl | hz
      · exact le_of_lt hlt
      · exact le_trans (le_of_lt hlt) (hy z hz)
    next hge =>
      refine List.pairwise_cons.mpr ⟨?_, insertSorted_pairwise key x hys⟩
      intro z hz
      rcases (insertSorted_mem key x z ys).mp hz with rfl | hz
      · exact not_lt.mp hge
      · exact hy z hz

theorem sortByKey_pairwise {α β : Type} [LinearOrder β] (key : α → β) (l : List α) :
    (sortByKey key l).Pairwise (fun a b => key a ≤ key b) := by
  have h : ∀ (l acc : List α), acc.Pairwise (fun a b => key a ≤ key b) →
      (l.foldl (fun acc x => insertSorted key x acc) acc).Pairwise
        (fun a b => key a ≤ key b) := by
    intro l
    induction l with
    | nil => intro acc hacc; simpa using hacc
    | cons x xs ih => intro acc hacc; exact ih _ (insertSorted_pairwise key x hacc)
  exact h l [] List.Pairwise.nil

/-! ## Minimum / maximum lemmas -/

theorem minEventTs_le : ∀ {l : List Event}, ∀ ev ∈ l, minEventTs l ≤ ev.timestamp
  | [], ev, h => absurd h (List.not_mem_nil ev)
  | [x], ev, h => by
    rcases List.mem_singleton.mp h with rfl
    exact le_refl _
  | x :: y :: rest, ev, h => by
    rcases List.mem_cons.mp h with rfl | h2
    · exact min_le_left _ _
    · exact le_trans (min_le_right _ _) (minEventTs_le ev h2)

theorem minEventTs_mem : ∀ {l : List Event}, l ≠ [] →
    ∃ ev ∈ l, ev.timestamp = minEventTs l
  | [], h => absurd rfl h
  | [x], _ => ⟨x, List.mem_singleton_self x, rfl⟩
  | x :: y :: rest, _ => by
    rcases minEventTs_mem (l := y :: rest) (by simp) with ⟨ev, hmem, hts⟩
    rcases le_total x.timestamp (minEventTs (y :: rest)) with hle | hle
    · exact ⟨x, List.mem_cons_self x _, (min_eq_left hle).symm⟩
    · refine ⟨ev, List.mem_cons_of_mem x hmem, ?_⟩
      rw [hts]
      exact (min_eq_right hle).symm

theorem listMin_le : ∀ {l : List Int}, ∀ t ∈ l, listMin l ≤ t
  | [], t, h => absurd h (List.not_mem_nil t)
  | [x], t, h => by
    rcases List.mem_singleton.mp h with rfl
    exact le_refl _
  | x :: y :: rest, t, h => by
    rcases List.mem_cons.mp h with rfl | h2
    · exact min_le_left _ _
    · exact le_trans (min_le_right _ _) (listMin_le t h2)

theorem listMin_mem : ∀ {l : List Int}, l ≠ [] → listMin l ∈ l
  | [], h => absurd rfl h
  | [x], _ => List.mem_singleton_self x
  | x :: y :: rest, _ => by
    rcases le_total x (listMin (y :: rest)) with hle | hle
    · rw [show listMin (x :: y :: rest) = min x (listMin (y :: rest)) from rfl,
        min_eq_left hle]
      exact List.mem_cons_self x _
    · rw [show listMin (x :: y :: rest) = min x (listMin (y :: rest)) from rfl,
        min_eq_right hle]
      exact List.mem_cons_of_mem x (listMin_mem (by simp))

theorem le_listMax : ∀ {l : List Int}, ∀ t ∈ l, t ≤ listMax l
  | [], t, h => absurd h (List.not_mem_nil t)
  | [x], t, h => by
    rcases List.mem_singleton.mp h with rfl
    exact le_refl _
  | x :: y :: rest, t, h => by
    rcases List.mem_cons.mp h with rfl | h2
    · exact le_max_left _ _
    · exact le_trans (le_listMax t h2) (le_max_right _ _)

theorem listMax_mem : ∀ {l : List Int}, l ≠ [] → listMax l ∈ l
  | [], h => absurd rfl h
  | [x], _ => List.mem_singleton_self x
  | x :: y :: rest, _ => by
    rcases le_total x (listMax (y :: rest)) with hle | hle
    · rw [show listMax (x :: y :: rest) = max x (listMax (y :: rest)) from rfl,
        max_eq_right hle]
      exact List.mem_cons_of_mem x (listMax_mem (by simp))
    · rw [show listMax (x :: y :: rest) = max x (listMax (y :: rest)) from rfl,
        max_eq_left hle]
      exact List.mem_cons_self x _

theorem listMin_perm {l l' : List Int} (h : l.Perm l') (hne : l ≠ []) :
    listMin l = listMin l' := by
  have hne' : l' ≠ [] := by
    intro hnil
    rw [hnil] at h
    exact hne (List.Perm.eq_nil h)
  apply le_antisymm
  · exact listMin_le _ (h.mem_iff.mpr (listMin_mem hne'))
  · exact listMin_le _ (h.mem_iff.mp (listMin_mem hne))

theorem listMax_perm {l l' : List Int} (h : l.Perm l') (hne : l ≠ []) :
    listMax l = listMax l' := by
  have hne' : l' ≠ [] := by
    intro hnil
    rw [hnil] at h
    exact hne (List.Perm.eq_nil h)
  apply le_antisymm
  · exact le_listMax _ (h.mem_iff.mp (listMax_mem hne))
  · exact le_listMax _ (h.mem_iff.mpr (listMax_mem hne'))

theorem sorted_headD_min : ∀ (l : List Int), l.Pairwise (· ≤ ·) → l ≠ [] →
    l.headD 0 = listMin l
  | [], _, hne => absurd rfl hne
  | [t], _, _ => rfl
  | t :: t2 :: rest, h, _ => by
    have h1 := (List.pairwise_cons.mp h).1
    have hmin : listMin (t :: t2 :: rest) = min t (listMin (t2 :: rest)) := rfl
    have hle : t ≤ listMin (t2 :: rest) :=
      h1 _ (listMin_mem (l := t2 :: rest) (by simp))
    rw [hmin, min_eq_left hle]
    rfl

theorem sorted_getLastD_max : ∀ (l : List Int), l.Pairwise (· ≤ ·) → l ≠ [] →
    l.getLastD 0 = listMax l
  | [], _, hne => absurd rfl hne
  | [t], _, _ => rfl
  | t :: t2 :: rest, h, _ => by
    obtain ⟨h1, h2⟩ := List.pairwise_cons.mp h
    have ih := sorted_getLastD_max (t2 :: rest) h2 (by simp)
    have hstep : (t :: t2 :: rest).getLastD 0 = (t2 :: rest).getLastD 0 := by
      simp [List.getLastD_cons]
    have hle : t ≤ listMax (t2 :: rest) :=
      le_trans (h1 _ (listMax_mem (l := t2 :: rest) (by simp)))
        (le_listMax _ (listMax_mem (l := t2 :: rest) (by simp)))
    rw [hstep, ih, show listMax (t :: t2 :: rest) = max t (listMax (t2 :: rest)) from rfl,
      max_eq_right hle]

theorem sorted_head_timestamp (events : List Event) (ev0 : Event) (rest : List Event)
    (h : sortByKey (fun ev => ev.timestamp) events = ev0 :: rest) :
    ev0.timestamp = minEventTs events := by
  have hperm := sortByKey_perm (fun ev => ev.timestamp) events
  have hpw := sortByKey_pairwise (fun ev => ev.timestamp) events
  rw [h] at hperm hpw
  have hne : events ≠ [] := by
    intro hnil
    rw [hnil] at hperm
    exact absurd (List.Perm.eq_nil hperm) (by simp)
  apply le_antisymm
  · rcases minEventTs_mem hne with ⟨ev, hmem, hts⟩
    have hmem2 : ev ∈ ev0 :: rest := hperm.mem_iff.mpr hmem
    rcases List.mem_cons.mp hmem2 with rfl | hr
    · rw [hts]
    · rw [← hts]
      exact (List.pairwise_cons.mp hpw).1 ev hr
  · exact minEventTs_le ev0 (hperm.mem_iff.mp (List.mem_cons_self ev0 rest))

/-! ## Interval reconstruction lemmas -/

theorem intervalsFromSorted_single (s e : Int) (mid : String) (ev : Event) :
    intervalsFromSorted s e mid [ev] =
      if max ev.timestamp s < e then
        [{ start_time := max ev.timestamp s, end_time := e, mode_name := ev.mode_name,
           machine_id := mid, status := get_mode_status ev.mode_name }]
      else [] := by
  show (if max ev.timestamp s < e then _ :: _ else _) = _
  split <;> rfl

theorem intervalsFromSorted_cons₂ (s e : Int) (mid : String) (ev ev2 : Event)
    (rest : List Event) :
    intervalsFromSorted s e mid (ev :: ev2 :: rest) =
      if max ev.timestamp s < min ev2.timestamp e then
        { start_time := max ev.timestamp s, end_time := min ev2.timestamp e,
          mode_name := ev.mode_name, machine_id := mid,
          status := get_mode_status ev.mode_name } ::
          intervalsFromSorted s e mid (ev2 :: rest)
      else intervalsFromSorted s e mid (ev2 :: rest) := by
  show (if max ev.timestamp s < min ev2.timestamp e then _ :: _ else _) = _
  split <;> rfl

theorem intervalsFromSorted_nil_of_ge (s e : Int) (mid : String) :
    ∀ l : List Event, (∀ ev ∈ l, e ≤ ev.timestamp) →
      intervalsFromSorted s e mid l = []
  | [], _ => rfl
  | [ev], h => by
    rw [intervalsFromSorted_single, if_neg]
    have := h ev (List.mem_singleton_self ev)
    omega
  | ev :: ev2 :: rest, h => by
    rw [intervalsFromSorted_cons₂, if_neg]
    · exact intervalsFromSorted_nil_of_ge s e mid (ev2 :: rest)
        (fun x hx => h x (List.mem_cons_of_mem ev hx))
    · have := h ev (List.mem_cons_self ev _)
      omega

theorem intervalsFromSorted_nil_of_empty_window (s e : Int) (mid : String)
    (hse : e ≤ s) : ∀ l : List Event, intervalsFromSorted s e mid l = []
  | [] => rfl
  | [ev] => by
    rw [intervalsFromSorted_single, if_neg]
    omega
  | ev :: ev2 :: rest => by
    rw [intervalsFromSorted_cons₂, if_neg]
    · exact intervalsFromSorted_nil_of_empty_window s e mid hse (ev2 :: rest)
    · omega

theorem tiles_intervalsFromSorted (s e : Int) (mid : String) :
    ∀ (rest : List Event) (ev : Event),
      (ev :: rest).Pairwise (fun a b => a.timestamp ≤ b.timestamp) →
      max ev.timestamp s < e →
      Tiles (intervalsFromSorted s e mid (ev :: rest)) (max ev.timestamp s) e := by
  intro rest
  induction rest with
  | nil =>
    intro ev _ hwin
    rw [intervalsFromSorted_single, if_pos hwin]
    exact ⟨rfl, hwin, rfl⟩
  | cons ev2 rest' ih =>
    intro ev hpw hwin
    obtain ⟨h1, hpw2⟩ := List.pairwise_cons.mp hpw
    have hts : ev.timestamp ≤ ev2.timestamp := h1 ev2 (List.mem_cons_self _ _)
    rw [intervalsFromSorted_cons₂]
    by_cases hkeep : max ev.timestamp s < min ev2.timestamp e
    · rw [if_pos hkeep]
      refine ⟨rfl, hkeep, ?_⟩
      by_cases he2 : ev2.timestamp < e
      · have hmax : max ev2.timestamp s = ev2.timestamp := by omega
        have hmin : min ev2.timestamp e = ev2.timestamp := by omega
        have := ih ev2 hpw2 (by omega)
        rw [hmax] at this
        rw [hmin]
        exact this
      · have hmin : min ev2.timestamp e = e := by omega
        have hnil : intervalsFromSorted s e mid (ev2 :: rest') = [] := by
          apply intervalsFromSorted_nil_of_ge
          intro x hx
          rcases List.mem_cons.mp hx with rfl | hx2
          · omega
          · have := (List.pairwise_cons.mp hpw2).1 x hx2
            omega
        rw [hmin, hnil]
        rfl
    · rw [if_neg hkeep]
      have hle2 : min ev2.timestamp e ≤ max ev.timestamp s := by omega
      have hev2le : ev2.timestamp ≤ max ev.timestamp s := by omega
      have hmaxeq : max ev2.timestamp s = max ev.timestamp s := by omega
      have := ih ev2 hpw2 (by omega)
      rw [hmaxeq] at this
      exact this

theorem Tiles.le_of : ∀ {l : List ModeInterval} {a b : Int}, Tiles l a b → a ≤ b
  | [], _, _, h => le_of_eq h
  | iv :: rest, _, _, h => by
    obtain ⟨h1, h2, h3⟩ := h
    have := Tiles.le_of h3
    omega

theorem Tiles.durationSumMs_eq : ∀ {l : List ModeInterval} {a b : Int},
    Tiles l a b → durationSumMs l = b - a
  | [], a, b, h => by
    have hab : a = b := h
    simp only [durationSumMs]
    omega
  | iv :: rest, a, b, h => by
    obtain ⟨h1, h2, h3⟩ := h
    have := Tiles.durationSumMs_eq h3
    simp only [durationSumMs]
    omega

theorem duration_sum_minutes_eq (l : List ModeInterval) :
    duration_sum_minutes l = ((durationSumMs l : Int) : ℚ) / 60000 := by
  have h : ∀ (l : List ModeInterval) (q : ℚ),
      l.foldl (fun a iv => a + iv.duration_minutes) q =
        q + ((durationSumMs l : Int) : ℚ) / 60000 := by
    intro l
    induction l with
    | nil => intro q; simp [durationSumMs]
    | cons iv rest ih =>
      intro q
      rw [List.foldl_cons, ih]
      simp only [durationSumMs, ModeInterval.duration_minutes]
      push_cast
      ring
  simpa using h l 0

theorem build_intervals_tiles (events : List Event) (s e : Int) (mid : String)
    (hne : events ≠ []) (hwin : max (minEventTs events) s < e) :
    Tiles (build_intervals events s e mid) (max (minEventTs events) s) e := by
  have hie : ¬ events.isEmpty = true := by simpa [List.isEmpty_iff] using hne
  unfold build_intervals
  rw [if_neg hie]
  rcases hsort : sortByKey (fun ev => ev.timestamp) events with _ | ⟨ev0, rest⟩
  · exfalso
    have hperm := sortByKey_perm (fun ev => ev.timestamp) events
    rw [hsort] at hperm
    exact hne (List.Perm.eq_nil hperm.symm)
  · have hpw := sortByKey_pairwise (fun ev => ev.timestamp) events
    rw [hsort] at hpw
    have hts := sorted_head_timestamp events ev0 rest hsort
    rw [← hts] at hwin
    rw [hsort, ← hts]
    exact tiles_intervalsFromSorted s e mid rest ev0 hpw hwin

theorem build_intervals_cases (events : List Event) (s e : Int) (mid : String) :
    build_intervals events s e mid = [] ∨
      Tiles (build_intervals events s e mid) (max (minEventTs events) s) e := by
  by_cases hne : events = []
  · left
    simp [build_intervals, hne]
  · by_cases hwin : max (minEventTs events) s < e
    · right
      exact build_intervals_tiles events s e mid hne hwin
    · left
      have hie : ¬ events.isEmpty = true := by simpa [List.isEmpty_iff] using hne
      unfold build_intervals
      rw [if_neg hie]
      by_cases hse : e ≤ s
      · exact intervalsFromSorted_nil_of_empty_window s e mid hse _
      · apply intervalsFromSorted_nil_of_ge
        intro ev hmem
        have hmem2 : ev ∈ events :=
          (sortByKey_perm (fun ev => ev.timestamp) events).mem_iff.mp hmem
        have := minEventTs_le ev hmem2
        omega

theorem Tiles.mem_start_le : ∀ {l : List ModeInterval} {a b : Int}, Tiles l a b →
    ∀ iv ∈ l, a ≤ iv.start_time
  | [], _, _, _, iv, hmem => absurd hmem (List.not_mem_nil iv)
  | iv0 :: rest, a, b, h, iv, hmem => by
    obtain ⟨h1, h2, h3⟩ := h
    rcases List.mem_cons.mp hmem with rfl | hr
    · omega
    · have := Tiles.mem_start_le h3 iv hr
      omega

theorem Tiles.overlapSumMs_le : ∀ {l : List ModeInterval} {a b : Int}, Tiles l a b →
    ∀ ds de : Int, overlapSumMs ds de l ≤ max 0 (min b de - max a ds)
  | [], a, b, h, ds, de => by
    have hab : a = b := h
    simp only [overlapSumMs]
    omega
  | iv :: rest, a, b, h, ds, de => by
    obtain ⟨h1, h2, h3⟩ := h
    have ihb := Tiles.overlapSumMs_le h3 ds de
    have hmb : iv.end_time ≤ b := Tiles.le_of h3
    simp only [overlapSumMs]
    rw [h1] at h2
    split
    · omega
    · omega

theorem overlapSumMs_build_le (events : List Event) (s e : Int) (mid : String)
    (ds de : Int) :
    overlapSumMs ds de (build_intervals events s e mid) ≤ max 0 (de - ds) := by
  rcases build_intervals_cases events s e mid with h | h
  · rw [h]
    simp only [overlapSumMs]
    omega
  · have := Tiles.overlapSumMs_le h ds de
    omega

theorem daily_actual_fold_eq (intervals : List ModeInterval) (ds de : Int) :
    (intervals.foldl
      (fun a iv =>
        if max iv.start_time ds < min iv.end_time de then
          a + ((min iv.end_time de - max iv.start_time ds : Int) : ℚ) / 60000
        else a) 0) = ((overlapSumMs ds de intervals : Int) : ℚ) / 60000 := by
  have h : ∀ (l : List ModeInterval) (q : ℚ),
      (l.foldl
        (fun a iv =>
          if max iv.start_time ds < min iv.end_time de then
            a + ((min iv.end_time de - max iv.start_time ds : Int) : ℚ) / 60000
          else a) q) = q + ((overlapSumMs ds de l : Int) : ℚ) / 60000 := by
    intro l
    induction l with
    | nil =>
      intro q
      simp [overlapSumMs]
    | cons iv rest ih =>
      intro q
      rw [List.foldl_cons, ih]
      simp only [overlapSumMs]
      split
      · push_cast
        ring
      · push_cast
        ring
  simpa using h intervals 0

/-! ## Claim C1 -/

/-- C1 (amended): for a nonempty event list whose earliest timestamp `t₁`
satisfies `max t₁ windowStart < windowEnd`, the intervals returned by
`build_intervals` exactly tile `[max windowStart t₁, windowEnd)`: every
interval has `start < end`, each interval's end equals the next interval's
start, and the durations sum to `windowEnd - max windowStart t₁` minutes.  In
particular the full window is tiled exactly when the first event is at or
before `windowStart`; when the first event lies strictly after `windowStart`
the time before it is not represented, and an empty event list yields no
intervals at all. -/
theorem C1_build_intervals_tiling (events : List Event) (s e : Int) (mid : String)
    (hne : events ≠ []) (hwin : max (minEventTs events) s < e) :
    Tiles (build_intervals events s e mid) (max (minEventTs events) s) e ∧
    duration_sum_minutes (build_intervals events s e mid) =
      ((e - max (minEventTs events) s : Int) : ℚ) / 60000 := by
  have ht := build_intervals_tiles events s e mid hne hwin
  refine ⟨ht, ?_⟩
  rw [duration_sum_minutes_eq, Tiles.durationSumMs_eq ht]

theorem C1_build_intervals_tiling_witness :
    Tiles (build_intervals [{ timestamp := 0, mode_name := "NOR", machine_id := "E1" }]
        0 120000 "E1")
      (max (minEventTs [{ timestamp := 0, mode_name := "NOR", machine_id := "E1" }]) 0)
      120000 ∧
    duration_sum_minutes
        (build_intervals [{ timestamp := 0, mode_name := "NOR", machine_id := "E1" }]
          0 120000 "E1") =
      ((120000 -
          max (minEventTs [{ timestamp := 0, mode_name := "NOR", machine_id := "E1" }]) 0 :
        Int) : ℚ) / 60000 :=
  C1_build_intervals_tiling
    [{ timestamp := 0, mode_name := "NOR", machine_id := "E1" }] 0 120000 "E1"
    (by decide) (by decide)

/-- C1 counterexample: a single event at minute 1 inside the window
`[0 ms, 120000 ms)` yields intervals whose durations sum to 1 minute, not the
2-minute window length, so `build_intervals` does not tile the whole window
when the first event lies strictly after the window start. -/
theorem C1_counterexample :
    duration_sum_minutes
        (build_intervals [{ timestamp := 60000, mode_name := "NOR", machine_id := "E1" }]
          0 120000 "E1") ≠
      ((120000 - 0 : Int) : ℚ) / 60000 := by
  have h : durationSumMs
      (build_intervals [{ timestamp := 60000, mode_name := "NOR", machine_id := "E1" }]
        0 120000 "E1") = 60000 := by decide
  rw [duration_sum_minutes_eq, h]
  norm_num

/-! ## Claim C6 -/

/-- C6: for entity `"E1"` with events NOR at 00:00 and COR at 01:00 in the
window `[00:00, 02:00)` (milliseconds from local midnight), `build_intervals`
returns exactly the two intervals `[00:00, 01:00)` uptime/NOR and
`[01:00, 02:00)` downtime/COR, and `calculate_metrics` on them yields
`uptime_percentage = 50`. -/
theorem C6_concrete_scenario :
    build_intervals
        [{ timestamp := 0, mode_name := "NOR", machine_id := "E1" },
         { timestamp := 3600000, mode_name := "COR", machine_id := "E1" }]
        0 7200000 "E1" =
      [{ start_time := 0, end_time := 3600000, mode_name := "NOR",
         machine_id := "E1", status := "uptime" },
       { start_time := 3600000, end_time := 7200000, mode_name := "COR",
         machine_id := "E1", status := "downtime" }] ∧
    (calculate_metrics
        (build_intervals
          [{ timestamp := 0, mode_name := "NOR", machine_id := "E1" },
           { timestamp := 3600000, mode_name := "COR", machine_id := "E1" }]
          0 7200000 "E1")
        "E1" "INST1").uptime_percentage = 50 := by
  have h : build_intervals
      [{ timestamp := 0, mode_name := "NOR", machine_id := "E1" },
       { timestamp := 3600000, mode_name := "COR", machine_id := "E1" }]
      0 7200000 "E1" =
    [{ start_time := 0, end_time := 3600000, mode_name := "NOR",
       machine_id := "E1", status := "uptime" },
     { start_time := 3600000, end_time := 7200000, mode_name := "COR",
       machine_id := "E1", status := "downtime" }] := by decide
  refine ⟨h, ?_⟩
  rw [h]
  have hne1 : (("downtime" : String) = "uptime") = False := by decide
  norm_num [calculate_metrics, ModeInterval.duration_minutes, hne1]

/-! ## Claim C5 -/

/-- C5: an entity with zero events in the window appears in the per-entity
results with `total_minutes = 0`, `uptime_minutes = 0`, `downtime_minutes = 0`,
`uptime_percentage = 0`, `downtime_percentage = 0` (the zero-denominator guard
returns exact zeros, never a division by zero) and `has_data = false`. -/
theorem C5_zero_event_entity (events : List Event) (targets : List String)
    (s e : Int) (inst mid : String) (hmem : mid ∈ targets)
    (hempty : events.filter (fun ev => ev.machine_id == mid) = []) :
    ∃ entry ∈ machine_metrics_for events targets s e inst,
      entry.machine_id = mid ∧ entry.total_minutes = 0 ∧ entry.uptime_minutes = 0 ∧
      entry.downtime_minutes = 0 ∧ entry.uptime_percentage = 0 ∧
      entry.downtime_percentage = 0 ∧ entry.has_data = false := by
  refine ⟨machine_entry events s e inst mid, ?_, ?_⟩
  · have h1 : machine_entry events s e inst mid ∈
        targets.map (machine_entry events s e inst) :=
      List.mem_map_of_mem (machine_entry events s e inst) hmem
    exact (sortByKey_perm (fun m => asNum m.machine_id) _).mem_iff.mpr h1
  · simp [machine_entry, hempty]

theorem C5_zero_event_entity_witness :
    ∃ entry ∈ machine_metrics_for [] ["7"] 0 60000 "INST1",
      entry.machine_id = "7" ∧ entry.total_minutes = 0 ∧ entry.uptime_minutes = 0 ∧
      entry.downtime_minutes = 0 ∧ entry.uptime_percentage = 0 ∧
      entry.downtime_percentage = 0 ∧ entry.has_data = false :=
  C5_zero_event_entity [] ["7"] 0 60000 "INST1" "7" (by decide) (by decide)

/-! ## Claim C10 -/

/-- C10: the per-machine metrics list returned for an installation is sorted by
machine id ascending by numeric value (`int(machine_id)`), so `"2"` sorts
before `"10"`, for every target machine-id list. -/
theorem C10_machine_metrics_sorted (events : List Event) (targets : List String)
    (s e : Int) (inst : String) :
    (machine_metrics_for events targets s e inst).Pairwise
      (fun a b => asNum a.machine_id ≤ asNum b.machine_id) :=
  sortByKey_pairwise (fun m => asNum m.machine_id)
    (targets.map (machine_entry events s e inst))

/-! ## Range validator lemmas -/

theorem validate_step_order_keeps_invalid (s e : Int) (r : ValidationResult)
    (h : r.is_valid = false) : (validate_step_order s e r).is_valid = false := by
  unfold validate_step_order
  split <;> simp [h]

theorem validate_step_current_day_keeps_invalid (ed cd : Int) (r : ValidationResult)
    (h : r.is_valid = false) : (validate_step_current_day ed cd r).is_valid = false := by
  unfold validate_step_current_day
  split <;> simp [h]

theorem validate_step_span_keeps_invalid (sd ed : Int) (r : ValidationResult)
    (h : r.is_valid = false) : (validate_step_span sd ed r).is_valid = false := by
  unfold validate_step_span
  simp [h]

theorem validate_step_large_is_valid (s e : Int) (r : ValidationResult) :
    (validate_step_large s e r).is_valid = r.is_valid := by
  unfold validate_step_large
  split <;> rfl

theorem validate_step_span_warnings_extend (sd ed : Int) (r : ValidationResult) :
    ∃ w, (validate_step_span sd ed r).warnings = r.warnings ++ w := by
  unfold validate_step_span
  split
  · split
    · exact ⟨[VWarning.rangeTooLarge (ed - sd)], rfl⟩
    · exact ⟨[], by simp⟩
  · exact ⟨[], by simp⟩

theorem validate_step_large_warnings_extend (s e : Int) (r : ValidationResult) :
    ∃ w, (validate_step_large s e r).warnings = r.warnings ++ w := by
  unfold validate_step_large
  split
  · exact ⟨[VWarning.largeRange (Int.fdiv (e - s) msPerDay)], rfl⟩
  · exact ⟨[], by simp⟩

theorem validate_step_span_recs_extend (sd ed : Int) (r : ValidationResult) :
    ∃ w, (validate_step_span sd ed r).recommendations = r.recommendations ++ w := by
  unfold validate_step_span
  split
  · split
    · exact ⟨[VRec.earliestStartFor ed (ed - 14), VRec.maxRangeIs 14, VRec.selectShorter],
        rfl⟩
    · exact ⟨[], by simp⟩
  · exact ⟨[], by simp⟩

theorem validate_step_large_recs_extend (s e : Int) (r : ValidationResult) :
    ∃ w, (validate_step_large s e r).recommendations = r.recommendations ++ w := by
  unfold validate_step_large
  split
  · exact ⟨[VRec.smallerPeriods], rfl⟩
  · exact ⟨[], by simp⟩

theorem validate_step_large_no_new_rangeTooLarge (s e : Int) (r : ValidationResult)
    (d : Int) (h : VWarning.rangeTooLarge d ∈ (validate_step_large s e r).warnings) :
    VWarning.rangeTooLarge d ∈ r.warnings := by
  unfold validate_step_large at h
  split at h
  · rcases List.mem_append.mp h with h2 | h2
    · exact h2
    · simp at h2
  · exact h

/-! ## Claim C3 -/

/-- C3: a window whose start date is after the installation's current local
date is invalid; and for windows that pass the future-date, ordering and
current-day checks, a span of 15 days between start and end date is invalid
with a suggested earliest valid start date of `end date - 14`, while a span of
exactly 14 days is valid and reports no span violation. -/
theorem C3_range_span_boundary (s e c : Int) :
    (dayOf s > dayOf c → (validate_date_range s e c).is_valid = false) ∧
    (dayOf s ≤ dayOf c → s < e → dayOf e < dayOf c →
      ((dayOf e - dayOf s = 15 →
          (validate_date_range s e c).is_valid = false ∧
          VRec.earliestStartFor (dayOf e) (dayOf e - 14) ∈
            (validate_date_range s e c).recommendations) ∧
        (dayOf e - dayOf s = 14 →
          (validate_date_range s e c).is_valid = true ∧
          ∀ d, VWarning.rangeTooLarge d ∉ (validate_date_range s e c).warnings))) := by
  have hunfold : validate_date_range s e c =
      validate_step_large s e (validate_step_span (dayOf s) (dayOf e)
        (validate_step_current_day (dayOf e) (dayOf c)
          (validate_step_order s e
            (validate_step_future (dayOf s) (dayOf e) (dayOf c)
              { is_valid := true, warnings := [], recommendations := [],
                latest_available_date := dayOf c, current_time_local := c })))) := rfl
  constructor
  · intro hfut
    rw [hunfold, validate_step_large_is_valid]
    apply validate_step_span_keeps_invalid
    apply validate_step_current_day_keeps_invalid
    apply validate_step_order_keeps_invalid
    unfold validate_step_future
    rw [if_pos hfut]
  · intro hs hlt hcur
    have h1 : validate_step_future (dayOf s) (dayOf e) (dayOf c)
        { is_valid := true, warnings := [], recommendations := [],
          latest_available_date := dayOf c, current_time_local := c } =
        { is_valid := true, warnings := [], recommendations := [],
          latest_available_date := dayOf c, current_time_local := c } := by
      unfold validate_step_future
      rw [if_neg (by omega), if_neg (by omega)]
    have h2 : validate_step_order s e
        { is_valid := true, warnings := [], recommendations := [],
          latest_available_date := dayOf c, current_time_local := c } =
        { is_valid := true, warnings := [], recommendations := [],
          latest_available_date := dayOf c, current_time_local := c } := by
      unfold validate_step_order
      rw [if_neg (by omega)]
    have h3 : validate_step_current_day (dayOf e) (dayOf c)
        { is_valid := true, warnings := [], recommendations := [],
          latest_available_date := dayOf c, current_time_local := c } =
        { is_valid := true, warnings := [], recommendations := [],
          latest_available_date := dayOf c, current_time_local := c } := by
      unfold validate_step_current_day
      rw [if_neg (by omega)]
    rw [hunfold, h1, h2, h3]
    constructor
    · intro h15
      have hspan : validate_step_span (dayOf s) (dayOf e)
          { is_valid := true, warnings := [], recommendations := [],
            latest_available_date := dayOf c, current_time_local := c } =
          { is_valid := false, warnings := [VWarning.rangeTooLarge (dayOf e - dayOf s)],
            recommendations := [VRec.earliestStartFor (dayOf e) (dayOf e - 14),
              VRec.maxRangeIs 14, VRec.selectShorter],
            latest_available_date := dayOf c, current_time_local := c } := by
        unfold validate_step_span
        rw [if_pos rfl, if_pos (by omega)]
        simp
      rw [hspan]
      constructor
      · rw [validate_step_large_is_valid]
      · obtain ⟨w, hw⟩ := validate_step_large_recs_extend s e
          { is_valid := false, warnings := [VWarning.rangeTooLarge (dayOf e - dayOf s)],
            recommendations := [VRec.earliestStartFor (dayOf e) (dayOf e - 14),
              VRec.maxRangeIs 14, VRec.selectShorter],
            latest_available_date := dayOf c, current_time_local := c }
        rw [hw]
        apply List.mem_append_left
        simp
    · intro h14
      have hspan : validate_step_span (dayOf s) (dayOf e)
          { is_valid := true, warnings := [], recommendations := [],
            latest_available_date := dayOf c, current_time_local := c } =
          { is_valid := true, warnings := [], recommendations := [],
            latest_available_date := dayOf c, current_time_local := c } := by
        unfold validate_step_span
        rw [if_pos rfl, if_neg (by omega)]
      rw [hspan]
      constructor
      · rw [validate_step_large_is_valid]
      · intro d hd
        have := validate_step_large_no_new_rangeTooLarge s e
          { is_valid := true, warnings := [], recommendations := [],
            latest_available_date := dayOf c, current_time_local := c } d hd
        simp at this

theorem C3_range_span_boundary_witness :
    (validate_date_range 0 1296000000 1728000000).is_valid = false ∧
    (validate_date_range 0 1209600000 1728000000).is_valid = true := by
  constructor
  · exact (((C3_range_span_boundary 0 1296000000 1728000000).2
      (by decide) (by decide) (by decide)).1 (by decide)).1
  · exact (((C3_range_span_boundary 0 1209600000 1728000000).2
      (by decide) (by decide) (by decide)).2 (by decide)).1

theorem validate_step_current_day_fires (ed cd : Int) (r : ValidationResult)
    (h : ed ≥ cd) :
    (validate_step_current_day ed cd r).is_valid = false ∧
    VWarning.endIsCurrentDay cd ∈ (validate_step_current_day ed cd r).warnings ∧
    VRec.latestAllowedEnd (cd - 1) ∈
      (validate_step_current_day ed cd r).recommendations := by
  unfold validate_step_current_day
  rw [if_pos h]
  refine ⟨rfl, ?_, ?_⟩
  · exact List.mem_append_right _ (by simp)
  · exact List.mem_append_right _ (by simp)

theorem validate_end_today_chain (s e sd ed cd : Int) (r : ValidationResult)
    (h : ed ≥ cd) :
    (validate_step_large s e (validate_step_span sd ed
        (validate_step_current_day ed cd r))).is_valid = false ∧
    VWarning.endIsCurrentDay cd ∈ (validate_step_large s e (validate_step_span sd ed
        (validate_step_current_day ed cd r))).warnings ∧
    VRec.latestAllowedEnd (cd - 1) ∈ (validate_step_large s e (validate_step_span sd ed
        (validate_step_current_day ed cd r))).recommendations := by
  obtain ⟨hv, hw, hr⟩ := validate_step_current_day_fires ed cd r h
  refine ⟨?_, ?_, ?_⟩
  · rw [validate_step_large_is_valid]
    exact validate_step_span_keeps_invalid _ _ _ hv
  · obtain ⟨w1, h1⟩ :=
      validate_step_span_warnings_extend sd ed (validate_step_current_day ed cd r)
    obtain ⟨w2, h2⟩ := validate_step_large_warnings_extend s e
      (validate_step_span sd ed (validate_step_current_day ed cd r))
    rw [h2, h1]
    exact List.mem_append_left _ (List.mem_append_left _ hw)
  · obtain ⟨w1, h1⟩ :=
      validate_step_span_recs_extend sd ed (validate_step_current_day ed cd r)
    obtain ⟨w2, h2⟩ := validate_step_large_recs_extend s e
      (validate_step_span sd ed (validate_step_current_day ed cd r))
    rw [h2, h1]
    exact List.mem_append_left _ (List.mem_append_left _ hr)

/-! ## Claim C9 -/

/-- C9: every window whose end date equals the installation's current local
date — including one that ends earlier the same day, entirely in the past —
is rejected: `is_valid = false`, with a warning that the end date cannot be
the current day and a recommendation naming yesterday as the latest allowed
end date; and the car-mode tool then returns the structured validation error
(carrying exactly those warnings and recommendations) without computing any
metrics. -/
theorem C9_end_today_rejected (events : List Event) (targets : List String)
    (inst : String) (s e c : Int) (hend : dayOf e = dayOf c) :
    (validate_date_range s e c).is_valid = false ∧
    VWarning.endIsCurrentDay (dayOf c) ∈ (validate_date_range s e c).warnings ∧
    VRec.latestAllowedEnd (dayOf c - 1) ∈ (validate_date_range s e c).recommendations ∧
    car_mode_changed_run events targets inst s e c =
      CarModeResult.validationError (validate_date_range s e c).warnings
        (validate_date_range s e c).recommendations := by
  have hunfold : validate_date_range s e c =
      validate_step_large s e (validate_step_span (dayOf s) (dayOf e)
        (validate_step_current_day (dayOf e) (dayOf c)
          (validate_step_order s e
            (validate_step_future (dayOf s) (dayOf e) (dayOf c)
              { is_valid := true, warnings := [], recommendations := [],
                latest_available_date := dayOf c, current_time_local := c })))) := rfl
  obtain ⟨hv, hw, hr⟩ := validate_end_today_chain s e (dayOf s) (dayOf e) (dayOf c)
    (validate_step_order s e
      (validate_step_future (dayOf s) (dayOf e) (dayOf c)
        { is_valid := true, warnings := [], recommendations := [],
          latest_available_date := dayOf c, current_time_local := c }))
    (by omega)
  rw [hunfold]
  refine ⟨hv, hw, hr, ?_⟩
  unfold car_mode_changed_run
  rw [hunfold]
  simp [hv]

theorem C9_end_today_rejected_witness :
    (validate_date_range 0 435600000 439200000).is_valid = false ∧
    VWarning.endIsCurrentDay (dayOf 439200000) ∈
      (validate_date_range 0 435600000 439200000).warnings ∧
    VRec.latestAllowedEnd (dayOf 439200000 - 1) ∈
      (validate_date_range 0 435600000 439200000).recommendations ∧
    car_mode_changed_run [] [] "INST1" 0 435600000 439200000 =
      CarModeResult.validationError (validate_date_range 0 435600000 439200000).warnings
        (validate_date_range 0 435600000 439200000).recommendations :=
  C9_end_today_rejected [] [] "INST1" 0 435600000 439200000 (by decide)

/-! ## Coverage estimator lemmas -/

theorem sortByKey_id_headD_eq (ts : List Int) (hne : ts ≠ []) :
    (sortByKey (fun t => t) ts).headD 0 = listMin ts := by
  have hperm := sortByKey_perm (fun t => t) ts
  have hne2 : sortByKey (fun t => t) ts ≠ [] := by
    intro hnil
    rw [hnil] at hperm
    exact hne (List.Perm.eq_nil hperm.symm)
  rw [sorted_headD_min _ (sortByKey_pairwise (fun t => t) ts) hne2]
  exact listMin_perm hperm hne2

theorem sortByKey_id_getLastD_eq (ts : List Int) (hne : ts ≠ []) :
    (sortByKey (fun t => t) ts).getLastD 0 = listMax ts := by
  have hperm := sortByKey_perm (fun t => t) ts
  have hne2 : sortByKey (fun t => t) ts ≠ [] := by
    intro hnil
    rw [hnil] at hperm
    exact hne (List.Perm.eq_nil hperm.symm)
  rw [sorted_getLastD_max _ (sortByKey_pairwise (fun t => t) ts) hne2]
  exact listMax_perm hperm hne2

/-! ## Claim C2 -/

/-- C2: for an entity with at least one (truthy-)timestamped event and a
positive window, the coverage estimate is the step function of the clipped
span ratio: strictly above 0.8 gives exactly `0.95 × window minutes`, above
0.5 gives `0.8 ×`, above 0.2 gives `0.6 ×`, and otherwise (any span of at
most 20% of the window, including a single event with zero span) exactly
`0.3 × window minutes`; and an entity with zero events is reported with
`has_data = false` and 0 coverage minutes. -/
theorem C2_coverage_step_function (events : List CovEvent) (s e : Int)
    (hts : events.filterMap
        (fun ev => if ev.timestamp ≠ 0 then some ev.timestamp else none) ≠ [])
    (hwin : s < e) :
    (estimate_coverage_from_events events s e =
      (fun ts =>
        (fun wm span =>
          if span / wm > 8 / 10 then wm * (95 / 100)
          else if span / wm > 5 / 10 then wm * (8 / 10)
          else if span / wm > 2 / 10 then wm * (6 / 10)
          else wm * (3 / 10))
        (((e - s : Int) : ℚ) / 60000)
        (((min (listMax ts) e - max (listMin ts) s : Int) : ℚ) / 60000))
      (events.filterMap
        (fun ev => if ev.timestamp ≠ 0 then some ev.timestamp else none))) ∧
    (∀ (allEvents : List CovEvent) (mid : String),
      allEvents.filter (fun ev => ev.machine_id == mid) = [] →
        (machine_coverage_entry allEvents s e mid).has_data = false ∧
        (machine_coverage_entry allEvents s e mid).coverage_minutes = 0) := by
  constructor
  · have hne : ¬ events.isEmpty = true := by
      rw [List.isEmpty_iff]
      intro hie
      exact hts (by simp [hie])
    have htsne : ¬ (events.filterMap
        (fun ev => if ev.timestamp ≠ 0 then some ev.timestamp else none)).isEmpty = true := by
      rw [List.isEmpty_iff]
      exact hts
    unfold estimate_coverage_from_events
    rw [if_neg hne, if_neg htsne]
    have hhead := sortByKey_id_headD_eq
      (events.filterMap (fun ev => if ev.timestamp ≠ 0 then some ev.timestamp else none)) hts
    have hlast := sortByKey_id_getLastD_eq
      (events.filterMap (fun ev => if ev.timestamp ≠ 0 then some ev.timestamp else none)) hts
    simp only [hhead, hlast]
    have hwm : (((e - s : Int) : ℚ) / 60000) > 0 := by
      apply div_pos
      · exact_mod_cast sub_pos.mpr hwin
      · norm_num
    rw [if_pos hwm]
  · intro allEvents mid hfilter
    constructor
    · simp [machine_coverage_entry, hfilter]
    · simp [machine_coverage_entry, hfilter]

theorem C2_coverage_step_function_witness :
    estimate_coverage_from_events
        [{ timestamp := 120000, machine_id := "7" }] 0 600000 =
      (fun ts =>
        (fun wm span =>
          if span / wm > 8 / 10 then wm * (95 / 100)
          else if span / wm > 5 / 10 then wm * (8 / 10)
          else if span / wm > 2 / 10 then wm * (6 / 10)
          else wm * (3 / 10))
        (((600000 - 0 : Int) : ℚ) / 60000)
        (((min (listMax ts) 600000 - max (listMin ts) 0 : Int) : ℚ) / 60000))
      (([{ timestamp := 120000, machine_id := "7" }] : List CovEvent).filterMap
        (fun ev => if ev.timestamp ≠ 0 then some ev.timestamp else none)) :=
  (C2_coverage_step_function [{ timestamp := 120000, machine_id := "7" }] 0 600000
    (by decide) (by decide)).1

/-! ## Claim C4 -/

/-- C4: replaying `[Opening, Opened, Closing, Closed]` for one door group on
one local day yields exactly one completed cycle and no reversals; replaying
`[Opening, Opened, Closing, Opening, Opened, Closing, Closed]` yields exactly
one reversal and one completed cycle; and in general an `OPENING` event
arriving when the phase index is 3 (a `CLOSING` was matched, `CLOSED` not yet)
records one reversal bucketed by the day of that event and restarts the cycle
at `OPENING` (index 1, only the opening timestamp retained), leaving the
completed-cycle record unchanged. -/
theorem C4_door_cycles (st : DoorState) (ts : Int)
    (h3 : st.current_sequence_index = 3) (hcl : st.ts_closing.isSome = true) :
    ((run_door_events
        [{ state := "OPENING", timestamp := some 0 },
         { state := "OPENED", timestamp := some 1000 },
         { state := "CLOSING", timestamp := some 2000 },
         { state := "CLOSED", timestamp := some 3000 }]).cycle_days = [0] ∧
      (run_door_events
        [{ state := "OPENING", timestamp := some 0 },
         { state := "OPENED", timestamp := some 1000 },
         { state := "CLOSING", timestamp := some 2000 },
         { state := "CLOSED", timestamp := some 3000 }]).reversal_days = []) ∧
    ((run_door_events
        [{ state := "OPENING", timestamp := some 0 },
         { state := "OPENED", timestamp := some 1000 },
         { state := "CLOSING", timestamp := some 2000 },
         { state := "OPENING", timestamp := some 3000 },
         { state := "OPENED", timestamp := some 4000 },
         { state := "CLOSING", timestamp := some 5000 },
         { state := "CLOSED", timestamp := some 6000 }]).reversal_days = [0] ∧
      (run_door_events
        [{ state := "OPENING", timestamp := some 0 },
         { state := "OPENED", timestamp := some 1000 },
         { state := "CLOSING", timestamp := some 2000 },
         { state := "OPENING", timestamp := some 3000 },
         { state := "OPENED", timestamp := some 4000 },
         { state := "CLOSING", timestamp := some 5000 },
         { state := "CLOSED", timestamp := some 6000 }]).cycle_days = [0]) ∧
    ((stepDoor st { state := "OPENING", timestamp := some ts }).reversal_days =
        st.reversal_days ++ [dayOf ts] ∧
      (stepDoor st { state := "OPENING", timestamp := some ts }).current_sequence_index = 1 ∧
      (stepDoor st { state := "OPENING", timestamp := some ts }).ts_opening = some ts ∧
      (stepDoor st { state := "OPENING", timestamp := some ts }).ts_closing = none ∧
      (stepDoor st { state := "OPENING", timestamp := some ts }).cycle_days =
        st.cycle_days) := by
  refine ⟨⟨by decide, by decide⟩, ⟨by decide, by decide⟩, ?_⟩
  rcases hcs : st.ts_closing with _ | cg
  · rw [hcs] at hcl
    simp at hcl
  · cases hlc : st.last_closed_timestamp <;>
      simp [stepDoor, h3, hcs, hlc, cycle_sequence]

theorem C4_door_cycles_witness :
    (stepDoor
        { current_sequence_index := 3, ts_opening := some 0, ts_opened := some 1000,
          ts_closing := some 2000, ts_closed := none, last_closed_timestamp := none,
          cycle_days := [], reversal_days := [], opened_durations := [],
          closing_to_closed_durations := [], closed_to_opening_durations := [] }
        { state := "OPENING", timestamp := some 5000 }).reversal_days =
      ([] : List Int) ++ [dayOf 5000] ∧
    (stepDoor
        { current_sequence_index := 3, ts_opening := some 0, ts_opened := some 1000,
          ts_closing := some 2000, ts_closed := none, last_closed_timestamp := none,
          cycle_days := [], reversal_days := [], opened_durations := [],
          closing_to_closed_durations := [], closed_to_opening_durations := [] }
        { state := "OPENING", timestamp := some 5000 }).current_sequence_index = 1 ∧
    (stepDoor
        { current_sequence_index := 3, ts_opening := some 0, ts_opened := some 1000,
          ts_closing := some 2000, ts_closed := none, last_closed_timestamp := none,
          cycle_days := [], reversal_days := [], opened_durations := [],
          closing_to_closed_durations := [], closed_to_opening_durations := [] }
        { state := "OPENING", timestamp := some 5000 }).ts_opening = some 5000 ∧
    (stepDoor
        { current_sequence_index := 3, ts_opening := some 0, ts_opened := some 1000,
          ts_closing := some 2000, ts_closed := none, last_closed_timestamp := none,
          cycle_days := [], reversal_days := [], opened_durations := [],
          closing_to_closed_durations := [], closed_to_opening_durations := [] }
        { state := "OPENING", timestamp := some 5000 }).ts_closing = none ∧
    (stepDoor
        { current_sequence_index := 3, ts_opening := some 0, ts_opened := some 1000,
          ts_closing := some 2000, ts_closed := none, last_closed_timestamp := none,
          cycle_days := [], reversal_days := [], opened_durations := [],
          closing_to_closed_durations := [], closed_to_opening_durations := [] }
        { state := "OPENING", timestamp := some 5000 }).cycle_days = [] :=
  (C4_door_cycles
    { current_sequence_index := 3, ts_opening := some 0, ts_opened := some 1000,
      ts_closing := some 2000, ts_closed := none, last_closed_timestamp := none,
      cycle_days := [], reversal_days := [], opened_durations := [],
      closing_to_closed_durations := [], closed_to_opening_durations := [] }
    5000 rfl rfl).2.2

/-! ## Daily availability lemmas -/

theorem calculate_daily_availability_getD (intervals : List ModeInterval) (s e : Int)
    (i : Nat) (hi : i < (calculate_daily_availability intervals s e).length) :
    (calculate_daily_availability intervals s e).getD i default =
      daily_entry intervals s e (dayOf s + (i : Int)) := by
  unfold calculate_daily_availability at hi ⊢
  rw [List.getD_eq_getElem _ _ hi]
  simp

theorem pct_hours_eq_minutes (am em : ℚ) :
    (if em / 60 > 0 then (am / 60) / (em / 60) * 100 else 0) =
      (if em > 0 then am / em * 100 else 0) := by
  by_cases he : em > 0
  · rw [if_pos (by positivity), if_pos he]
    have h1 : (am / 60) / (em / 60) = am / em := by
      rw [div_div_div_comm]
      norm_num
    rw [h1]
  · rw [if_neg, if_neg he]
    intro hpos
    apply he
    nlinarith [hpos]

/-! ## Claim C7 -/

/-- C7 (amended): every daily availability entry's expected minutes equal the
minutes of that day's overlap with the window where the day is capped at
23:59:59 (the source parses the day end as `T23:59:59`, excluding the final
second): `min(day·86400000 + 86399000, windowEnd) - max(day·86400000,
windowStart)` ms — hence exactly `86399/60 = 1439.98333…` minutes (not 1440)
for an interior day, and the capped partial overlap for the first and last
days; the availability percentage equals `actual/expected × 100` and is 0
when the expected amount is not positive. -/
theorem C7_daily_expected_minutes (intervals : List ModeInterval) (s e : Int)
    (i : Nat) (hi : i < (calculate_daily_availability intervals s e).length) :
    ((calculate_daily_availability intervals s e).getD i default).expected_hours * 60 =
      ((min (((calculate_daily_availability intervals s e).getD i default).day * msPerDay
            + 86399000) e -
          max (((calculate_daily_availability intervals s e).getD i default).day * msPerDay)
            s : Int) : ℚ) / 60000 ∧
    (s ≤ ((calculate_daily_availability intervals s e).getD i default).day * msPerDay →
      (((calculate_daily_availability intervals s e).getD i default).day + 1) * msPerDay ≤ e →
      ((calculate_daily_availability intervals s e).getD i default).expected_hours * 60 =
        86399 / 60) ∧
    ((calculate_daily_availability intervals s e).getD i default).availability_percentage =
      (if ((calculate_daily_availability intervals s e).getD i default).expected_hours * 60 > 0
        then (((calculate_daily_availability intervals s e).getD i default).actual_hours * 60) /
            (((calculate_daily_availability intervals s e).getD i default).expected_hours * 60) *
            100
        else 0) := by
  rw [calculate_daily_availability_getD intervals s e i hi]
  have hcan : ∀ a : ℚ, a / 60 * 60 = a := fun a => div_mul_cancel₀ a (by norm_num)
  refine ⟨?_, ?_, ?_⟩
  · simp only [daily_entry]
    rw [hcan]
  · intro h1 h2
    simp only [daily_entry] at h1 h2 ⊢
    rw [hcan]
    have hmin : min ((dayOf s + (i : Int)) * msPerDay + 86399000) e =
        (dayOf s + (i : Int)) * msPerDay + 86399000 := by
      simp only [msPerDay] at h2 ⊢
      omega
    have hmax : max ((dayOf s + (i : Int)) * msPerDay) s = (dayOf s + (i : Int)) * msPerDay := by
      omega
    rw [hmin, hmax]
    push_cast
    ring_nf
  · simp only [daily_entry]
    rw [hcan, hcan]
    exact pct_hours_eq_minutes _ _

theorem C7_daily_expected_minutes_witness :
    ((calculate_daily_availability [] 0 0).getD 0 default).expected_hours * 60 =
      ((min (((calculate_daily_availability [] 0 0).getD 0 default).day * msPerDay
            + 86399000) 0 -
          max (((calculate_daily_availability [] 0 0).getD 0 default).day * msPerDay)
            0 : Int) : ℚ) / 60000 :=
  (C7_daily_expected_minutes [] 0 0 0 (by decide)).1

/-- C7 counterexample: for the window `[0 ms, 172800000 ms)` (two full local
days), the interior first day's expected minutes are `86399/60 ≈ 1439.98`,
not 1440: the source caps each day at 23:59:59 and so drops one second per
day. -/
theorem C7_counterexample :
    ((calculate_daily_availability [] 0 172800000).getD 1 default).expected_hours * 60
      ≠ 1440 := by
  have hget := calculate_daily_availability_getD [] 0 172800000 1 (by decide)
  rw [hget]
  simp only [daily_entry, msPerDay, dayOf]
  norm_num

/-! ## Claim C8 -/

/-- C8 (amended): for every daily availability entry computed from one
entity's reconstructed intervals, the actual minutes never exceed
`max (expected minutes) 0`.  The `max` with 0 is forced by a degenerate
corner: when the window start lies strictly inside the final second
(23:59:59–24:00:00) of its own calendar day, that first day's expected
minutes are negative while the actual minutes are 0; whenever the expected
minutes are nonnegative the entry satisfies `actual ≤ expected`. -/
theorem C8_daily_actual_le_expected (events : List Event) (s e : Int) (mid : String)
    (entry : DailyEntry)
    (hmem : entry ∈ calculate_daily_availability (build_intervals events s e mid) s e) :
    entry.actual_hours * 60 ≤ max (entry.expected_hours * 60) 0 := by
  unfold calculate_daily_availability at hmem
  rcases List.mem_map.mp hmem with ⟨i, hir, hentry⟩
  subst hentry
  have hcan : ∀ a : ℚ, a / 60 * 60 = a := fun a => div_mul_cancel₀ a (by norm_num)
  simp only [daily_entry]
  simp only [hcan]
  rw [daily_actual_fold_eq]
  have hb := overlapSumMs_build_le events s e mid
    (max ((dayOf s + (i : Int)) * msPerDay) s)
    (min ((dayOf s + (i : Int)) * msPerDay + 86399000) e)
  set A : Int := overlapSumMs (max ((dayOf s + (i : Int)) * msPerDay) s)
    (min ((dayOf s + (i : Int)) * msPerDay + 86399000) e)
    (build_intervals events s e mid) with hAdef
  set B : Int := min ((dayOf s + (i : Int)) * msPerDay + 86399000) e -
    max ((dayOf s + (i : Int)) * msPerDay) s with hBdef
  rcases le_total B 0 with hB0 | hB0
  · have hA0 : A ≤ 0 := by omega
    have hAq : (A : ℚ) ≤ 0 := by exact_mod_cast hA0
    have h1 : (A : ℚ) / 60000 ≤ 0 := by
      have := (div_le_div_iff_of_pos_right (show (0:ℚ) < 60000 by norm_num)).mpr hAq
      simpa using this
    exact le_trans h1 (le_max_right _ _)
  · have hAB : A ≤ B := by omega
    have hABq : (A : ℚ) ≤ (B : ℚ) := by exact_mod_cast hAB
    have h1 : (A : ℚ) / 60000 ≤ (B : ℚ) / 60000 :=
      (div_le_div_iff_of_pos_right (show (0:ℚ) < 60000 by norm_num)).mpr hABq
    exact le_trans h1 (le_max_left _ _)

theorem C8_daily_actual_le_expected_witness :
    (daily_entry (build_intervals [] 0 0 "E1") 0 0 (dayOf 0 + ((0 : Nat) : Int))).actual_hours
        * 60 ≤
      max ((daily_entry (build_intervals [] 0 0 "E1") 0 0
          (dayOf 0 + ((0 : Nat) : Int))).expected_hours * 60) 0 :=
  C8_daily_actual_le_expected [] 0 0 "E1" _
    (by
      unfold calculate_daily_availability
      exact List.mem_map_of_mem _ (by decide))

/-- C8 counterexample: with no events and the window
`[86399500 ms, 86401000 ms)` — a start 23:59:59.5 into day 0 — the first
day's entry has expected minutes `-1/120` (the day cap 23:59:59 lies before
the window start) while the actual minutes are 0, so the actual minutes
exceed that day's expected minutes. -/
theorem C8_counterexample :
    ((calculate_daily_availability (build_intervals [] 86399500 86401000 "E1")
        86399500 86401000).getD 0 default).expected_hours * 60 <
      ((calculate_daily_availability (build_intervals [] 86399500 86401000 "E1")
        86399500 86401000).getD 0 default).actual_hours * 60 := by
  rw [calculate_daily_availability_getD _ _ _ 0 (by decide)]
  have hbi : build_intervals ([] : List Event) 86399500 86401000 "E1" = [] := rfl
  rw [hbi]
  have hd : dayOf 86399500 = 0 := by decide
  simp only [daily_entry, msPerDay, hd]
  norm_num
